import Mathlib

/-! Shallow embedding of the NexusChat real-time messaging core:
the socket gateway's connection registry and event handlers
(`Backend/socket/handlers.js`), the group-leave route
(`Backend/routes/chats.js`), and the client reconciliation store
(`Frontend/src/stores/chatStore.ts`).

JavaScript `Map`s and objects used as dictionaries are embedded as
association lists with at most one binding per key (maintained by
construction); JavaScript `Set`s are embedded as duplicate-free lists
(insertion adds only when absent, mirroring `Set.add`).
-/

namespace NexusChat

/-! Section: Connection registry (handlers.js, `onlineUsers` map)

`onlineUsers` is a `Map` from user id to the `Set` of that user's live
socket ids.  The connection handler (lines 38-42) creates an empty set on
first connect and adds the socket id; the disconnect handler
(lines 347-377) removes the socket id and deletes the whole entry when the
set becomes empty.  `isUserOnline` (line 384) is `onlineUsers.has(userId)`.
-/

/-- Association-list lookup: the value bound to key `k`, if any
(first binding wins, as in a JS `Map` with unique keys). -/
def keyFind {β : Type} : List (String × β) → String → Option β
  | [], _ => none
  | p :: rest, k => if p.1 = k then some p.2 else keyFind rest k

/-- Association-list update: replace the first binding of `k`, or append a
new binding when `k` is absent (JS `Map.set` / object-spread key update). -/
def keySet {β : Type} : List (String × β) → String → β → List (String × β)
  | [], k, v => [(k, v)]
  | p :: rest, k, v => if p.1 = k then (k, v) :: rest else p :: keySet rest k v

/-- Association-list deletion of every binding of `k` (JS `Map.delete`;
with unique keys this removes the one binding). -/
def keyErase {β : Type} (st : List (String × β)) (k : String) : List (String × β) :=
  st.filter (fun p => p.1 ≠ k)

/-- JS `Set.add`: append the element only when it is absent. -/
def addToSet {α : Type} [DecidableEq α] (l : List α) (a : α) : List α :=
  if a ∈ l then l else l ++ [a]

/-- The in-memory registry: user id → list of that user's socket ids. -/
abbrev Registry := List (String × List String)

/-- Connection handler effect on the registry (handlers.js lines 38-42):
ensure the user has an entry, then `Set.add` the socket id. -/
def connect (st : Registry) (userId socketId : String) : Registry :=
  keySet st userId (addToSet ((keyFind st userId).getD []) socketId)

/-- Disconnect handler effect on the registry (handlers.js lines 347-377):
remove the socket id from the user's set; when the set becomes empty the
whole entry is deleted.  A user with no entry is left untouched. -/
def disconnect (st : Registry) (userId socketId : String) : Registry :=
  match keyFind st userId with
  | none => st
  | some socks =>
    let socks' := socks.filter (fun s => s ≠ socketId)
    if socks' = [] then keyErase st userId else keySet st userId socks'

/-- The helper `isUserOnline` (handlers.js line 384): `onlineUsers.has(userId)`. -/
def isUserOnline (st : Registry) (userId : String) : Bool :=
  (keyFind st userId).isSome

/-- The set of registered socket handles for a user
(spec §4.1 `activeConnections`; the `Map` entry, or empty when absent). -/
def activeConnections (st : Registry) (userId : String) : List String :=
  (keyFind st userId).getD []

/-- A connect or disconnect event for one user's socket. -/
inductive SockEvent : Type
  | connEv (userId socketId : String)
  | discEv (userId socketId : String)
deriving DecidableEq, Repr

/-- One gateway event applied to the registry. -/
def stepEvent (st : Registry) : SockEvent → Registry
  | .connEv u s => connect st u s
  | .discEv u s => disconnect st u s

/-- The registry after a sequence of connect/disconnect events, starting
from the empty registry of a fresh process. -/
def runEvents (evs : List SockEvent) : Registry :=
  evs.foldl stepEvent []

/-- Registry well-formedness: no entry holds an empty socket set. -/
def goodReg (st : Registry) : Prop :=
  ∀ p ∈ st, p.2 ≠ ([] : List String)

theorem keyFind_mem {β : Type} {st : List (String × β)} {k : String} {v : β}
    (h : keyFind st k = some v) : (k, v) ∈ st := by
  induction st with
  | nil => simp [keyFind] at h
  | cons p rest ih =>
    unfold keyFind at h
    by_cases hp : p.1 = k
    · rw [if_pos hp] at h
      simp only [Option.some.injEq] at h
      have : p = (k, v) := by cases p; simp_all
      rw [this] at *
      exact List.mem_cons_self _ _
    · rw [if_neg hp] at h
      exact List.mem_cons_of_mem p (ih h)

theorem goodReg_keySet {st : Registry} {k : String} {v : List String}
    (hst : goodReg st) (hv : v ≠ []) : goodReg (keySet st k v) := by
  induction st with
  | nil => intro p hp; simp [keySet] at hp; rw [hp]; exact hv
  | cons q rest ih =>
    intro p hp
    simp only [keySet] at hp
    by_cases hq : q.1 = k
    · rw [if_pos hq] at hp
      rcases List.mem_cons.mp hp with h | h
      · rw [h]; exact hv
      · exact hst p (List.mem_cons_of_mem q h)
    · rw [if_neg hq] at hp
      rcases List.mem_cons.mp hp with h | h
      · rw [h]; exact hst q (List.mem_cons_self q rest)
      · exact ih (fun r hr => hst r (List.mem_cons_of_mem q hr)) p h

theorem goodReg_keyErase {st : Registry} {k : String}
    (hst : goodReg st) : goodReg (keyErase st k) := by
  intro p hp
  exact hst p (List.mem_of_mem_filter hp)

theorem addToSet_ne_nil {α : Type} [DecidableEq α] (l : List α) (a : α) :
    addToSet l a ≠ [] := by
  unfold addToSet
  by_cases h : a ∈ l
  · rw [if_pos h]; exact List.ne_nil_of_mem h
  · rw [if_neg h]; simp

theorem goodReg_connect {st : Registry} (u s : String)
    (hst : goodReg st) : goodReg (connect st u s) :=
  goodReg_keySet hst (addToSet_ne_nil _ _)

theorem goodReg_disconnect {st : Registry} (u s : String)
    (hst : goodReg st) : goodReg (disconnect st u s) := by
  unfold disconnect
  cases hf : keyFind st u with
  | none => exact hst
  | some socks =>
    simp only
    by_cases he : socks.filter (fun x => x ≠ s) = []
    · rw [if_pos he]; exact goodReg_keyErase hst
    · rw [if_neg he]; exact goodReg_keySet hst he

theorem goodReg_runEvents (evs : List SockEvent) : goodReg (runEvents evs) := by
  suffices h : ∀ st : Registry, goodReg st → goodReg (evs.foldl stepEvent st) from
    h [] (by intro p hp; cases hp)
  induction evs with
  | nil => intro st hst; exact hst
  | cons e rest ih =>
    intro st hst
    apply ih
    cases e with
    | connEv u s => exact goodReg_connect u s hst
    | discEv u s => exact goodReg_disconnect u s hst

/-- C1: after any sequence of connect and disconnect events, the gateway
reports a user online exactly when the registry holds at least one live
connection for that user: `isUserOnline` is `true` iff the registered
socket-handle set is non-empty. -/
theorem presence_invariant (evs : List SockEvent) (u : String) :
    isUserOnline (runEvents evs) u = true ↔
      activeConnections (runEvents evs) u ≠ [] := by
  have hg := goodReg_runEvents evs
  unfold isUserOnline activeConnections
  cases hf : keyFind (runEvents evs) u with
  | none => simp
  | some socks =>
    simp only [Option.isSome_some, Option.getD_some, true_iff]
    exact hg (u, socks) (keyFind_mem hf)

/-! Section: Reaction toggle (handlers.js `add-reaction` handler, lines 201-240)

The handler looks up the message, checks the caller is a participant, then
toggles the `(user, emoji)` pair on `message.reactions`: `findIndex` of an
entry with the caller's user id and the same emoji; `splice` it out when
found, `push` a new entry otherwise.
-/

/-- A reaction entry `{ emoji, user }` on a message. -/
structure Reaction where
  emoji : String
  user : String
deriving DecidableEq, Repr

/-- The `findIndex` predicate of the add-reaction handler (lines 217-219):
`r.user.toString() === userId && r.emoji === emoji`. -/
def reactionMatches (userId emoji : String) (r : Reaction) : Bool :=
  r.user == userId && r.emoji == emoji

/-- The toggle performed by the add-reaction handler (lines 216-225):
remove the first matching `(user, emoji)` entry when one exists,
append a new entry otherwise. -/
def toggleReaction (userId emoji : String) (rs : List Reaction) : List Reaction :=
  if rs.any (reactionMatches userId emoji) then
    rs.eraseP (reactionMatches userId emoji)
  else
    rs ++ [{ emoji := emoji, user := userId }]

/-- Number of entries for a given `(user, emoji)` pair in a reaction list. -/
def countPair (userId emoji : String) (rs : List Reaction) : Nat :=
  rs.countP (reactionMatches userId emoji)

theorem countP_eraseP_of_any {α : Type} (p : α → Bool) (l : List α)
    (h : l.any p = true) : (l.eraseP p).countP p = l.countP p - 1 := by
  induction l with
  | nil => simp at h
  | cons a tl ih =>
    by_cases ha : p a
    · rw [List.eraseP_cons_of_pos ha, List.countP_cons_of_pos _ _ ha]
      simp
    · rw [List.eraseP_cons_of_neg ha, List.countP_cons_of_neg _ _ ha,
        List.countP_cons_of_neg _ _ ha]
      apply ih
      simp only [List.any_cons, ha, Bool.false_or] at h
      exact h

theorem countPair_toggle (u e : String) (rs : List Reaction)
    (h : countPair u e rs ≤ 1) :
    countPair u e (toggleReaction u e rs) = 1 - countPair u e rs := by
  unfold toggleReaction countPair at *
  by_cases hany : rs.any (reactionMatches u e) = true
  · rw [if_pos hany, countP_eraseP_of_any _ _ hany]
    have hpos : 0 < rs.countP (reactionMatches u e) := by
      rw [List.countP_pos_iff]
      simpa [List.any_eq_true] using hany
    omega
  · rw [if_neg hany]
    have hzero : rs.countP (reactionMatches u e) = 0 := by
      rw [List.countP_eq_zero]
      intro a ha
      intro hpa
      exact hany (List.any_eq_true.mpr ⟨a, ha, hpa⟩)
    rw [List.countP_append, hzero]
    simp [reactionMatches]

/-- C3 (amended): for a reaction list holding at most one entry for the
`(user, emoji)` pair, applying the add-reaction toggle an even number of
times leaves the pair's count unchanged, and an odd number of times leaves
`1 - c` entries where `c` is the initial count — so exactly one instance
when the pair was initially absent, and zero when it was present. -/
theorem reaction_toggle_parity (u e : String) (rs : List Reaction) (n : Nat)
    (h : countPair u e rs ≤ 1) :
    countPair u e ((toggleReaction u e)^[n] rs) =
      if n % 2 = 0 then countPair u e rs else 1 - countPair u e rs := by
  induction n with
  | zero => simp
  | succ m ih =>
    rw [Function.iterate_succ_apply']
    have hle : countPair u e ((toggleReaction u e)^[m] rs) ≤ 1 := by
      rw [ih]; split
      · exact h
      · omega
    rw [countPair_toggle _ _ _ hle, ih]
    have h2 : m % 2 = 0 ∨ m % 2 = 1 := Nat.mod_two_eq_zero_or_one m
    rcases h2 with h2 | h2
    · have : (m + 1) % 2 = 1 := by omega
      simp [h2, this]
    · have : (m + 1) % 2 = 0 := by omega
      simp [h2, this]
      omega

/-- C3 witness: three (an odd number of) toggles on a message with no
reaction for the pair leave exactly one instance of the pair. -/
theorem reaction_toggle_parity_witness :
    countPair "u" "like" [] ≤ 1 ∧
      countPair "u" "like" ((toggleReaction "u" "like")^[3] []) = 1 := by
  refine ⟨by decide, ?_⟩
  have h := reaction_toggle_parity "u" "like" [] 3 (by decide)
  simpa using h

/-- C3 counterexample: on a message whose reaction list already holds the
`(user, emoji)` pair, applying the toggle once (an odd number of times)
leaves zero instances of the pair, not exactly one as the claim states. -/
theorem reaction_toggle_counterexample :
    countPair "u" "like"
        (toggleReaction "u" "like" [{ emoji := "like", user := "u" }]) = 0 ∧
      countPair "u" "like"
        (toggleReaction "u" "like" [{ emoji := "like", user := "u" }]) ≠ 1 :=
  ⟨by decide, by decide⟩

/-! Section: Client reconciliation store (Frontend/src/stores/chatStore.ts)

Client-side messages carry a string id (`msg.id || msg._id`), content, a
sender (compared through `sender.id`), and a soft-delete flag.  Optimistic
messages get ids prefixed `temp-` (`sendMessage`, line 128).  The handlers
below embed the per-conversation message-sequence transformations; the
parallel chat-list bookkeeping (lastMessage, unreadCount) is not part of
the claims and is omitted.
-/

/-- A message as held by the client store: id, content, sender id, and the
soft-delete flag. -/
structure CMessage where
  id : String
  content : String
  senderId : String
  isDeleted : Bool
deriving DecidableEq, Repr

/-- Temporary (optimistic) ids are prefixed `temp-`
(chatStore.ts lines 128, 237, 370: `id.startsWith('temp-')`),
phrased over the id's character list. -/
def isTempId (s : String) : Bool := s.data.take 5 == "temp-".data

/-- The keep-predicate of `handleNewMessage` (chatStore.ts lines 369-381):
drop a temp message with the incoming message's content and sender, and
drop any message whose id equals the incoming id. -/
def keepOnNew (incoming msg : CMessage) : Bool :=
  !(isTempId msg.id && msg.content == incoming.content
      && msg.senderId == incoming.senderId)
    && !(msg.id == incoming.id)

/-- The handler `handleNewMessage` (chatStore.ts lines 361-402) on one conversation's
message sequence: filter with `keepOnNew`, then append the incoming
canonical message. -/
def handleNewMessage (msgs : List CMessage) (incoming : CMessage) :
    List CMessage :=
  msgs.filter (keepOnNew incoming) ++ [incoming]

/-- C2: when the sequence holds a temp-prefixed message from the current
user and the canonical server echo arrives with identical content and the
same sender (and a non-temp canonical id), applying `handleNewMessage`
leaves exactly one entry carrying the canonical id, the temporary entry is
gone, and no temp message with that content and sender remains. -/
theorem handleNewMessage_dedup (msgs : List CMessage) (m t : CMessage)
    (_ht : t ∈ msgs) (htemp : isTempId t.id = true)
    (hc : t.content = m.content) (hs : t.senderId = m.senderId)
    (hm : isTempId m.id = false) :
    (handleNewMessage msgs m).countP (fun x => x.id == m.id) = 1 ∧
      t ∉ handleNewMessage msgs m ∧
      ∀ x ∈ handleNewMessage msgs m, isTempId x.id = true →
        ¬(x.content = m.content ∧ x.senderId = m.senderId) := by
  refine ⟨?_, ?_, ?_⟩
  · unfold handleNewMessage
    rw [List.countP_append]
    have hz : (msgs.filter (keepOnNew m)).countP (fun x => x.id == m.id) = 0 := by
      rw [List.countP_eq_zero]
      intro x hx hpx
      have hk := List.of_mem_filter hx
      simp only [keepOnNew, Bool.and_eq_true, Bool.not_eq_true'] at hk
      rw [hk.2] at hpx
      exact Bool.false_ne_true hpx
    rw [hz]
    simp
  · intro hmem
    unfold handleNewMessage at hmem
    rcases List.mem_append.mp hmem with hf | hone
    · have hk := List.of_mem_filter hf
      simp only [keepOnNew, Bool.and_eq_true, Bool.not_eq_true'] at hk
      have : (isTempId t.id && t.content == m.content && t.senderId == m.senderId)
          = true := by
        rw [htemp, hc, hs]; simp
      rw [hk.1] at this
      exact Bool.false_ne_true this
    · have : t = m := by simpa using hone
      rw [this] at htemp
      rw [htemp] at hm
      simp at hm
  · intro x hx hxtemp hcs
    unfold handleNewMessage at hx
    rcases List.mem_append.mp hx with hf | hone
    · have hk := List.of_mem_filter hf
      simp only [keepOnNew, Bool.and_eq_true, Bool.not_eq_true'] at hk
      have : (isTempId x.id && x.content == m.content && x.senderId == m.senderId)
          = true := by
        rw [hxtemp, hcs.1, hcs.2]; simp
      rw [hk.1] at this
      exact Bool.false_ne_true this
    · have : x = m := by simpa using hone
      rw [this] at hxtemp
      rw [hxtemp] at hm
      simp at hm

/-- C2 witness: the spec scenario — temp id `temp-1` with content "hello",
canonical echo `m-42` with identical content and sender. -/
theorem handleNewMessage_dedup_witness :
    (⟨"temp-1", "hello", "u-A", false⟩ : CMessage) ∈
        [(⟨"temp-1", "hello", "u-A", false⟩ : CMessage)] ∧
      ((handleNewMessage [⟨"temp-1", "hello", "u-A", false⟩]
            ⟨"m-42", "hello", "u-A", false⟩).countP
          (fun x => x.id == "m-42") = 1 ∧
        (⟨"temp-1", "hello", "u-A", false⟩ : CMessage) ∉
          handleNewMessage [⟨"temp-1", "hello", "u-A", false⟩]
            ⟨"m-42", "hello", "u-A", false⟩ ∧
        ∀ x ∈ handleNewMessage [⟨"temp-1", "hello", "u-A", false⟩]
            ⟨"m-42", "hello", "u-A", false⟩, isTempId x.id = true →
          ¬(x.content = "hello" ∧ x.senderId = "u-A")) :=
  ⟨by decide,
    handleNewMessage_dedup [⟨"temp-1", "hello", "u-A", false⟩]
      ⟨"m-42", "hello", "u-A", false⟩ ⟨"temp-1", "hello", "u-A", false⟩
      (by decide) (by decide) (by decide) (by decide) (by decide)⟩

/-- Tombstoning map step of `deleteMessage` and `handleMessageDeleted`
(chatStore.ts lines 225-234): replace content with the tombstone text and
set the deleted flag on the matching id, leave every other message as is. -/
def tombstoneIfMatch (mid : String) (m : CMessage) : CMessage :=
  if m.id == mid then
    { m with content := "This message was deleted", isDeleted := true }
  else m

/-- The store action `deleteMessage` (chatStore.ts lines 206-249) on one conversation's
sequence; the Bool records whether the server delete call
(`messagesApi.deleteMessage`) is made.  An already-deleted target is
removed from the sequence with no server call; a temp target is tombstoned
locally only; otherwise the server is called and the target tombstoned. -/
def deleteMessage (msgs : List CMessage) (mid : String) :
    List CMessage × Bool :=
  match msgs.find? (fun m => m.id == mid) with
  | some target =>
    if target.isDeleted then
      (msgs.filter (fun m => !(m.id == mid)), false)
    else if isTempId mid then
      (msgs.map (tombstoneIfMatch mid), false)
    else
      (msgs.map (tombstoneIfMatch mid), true)
  | none =>
    if isTempId mid then
      (msgs.map (tombstoneIfMatch mid), false)
    else
      (msgs.map (tombstoneIfMatch mid), true)

theorem deleteMessage_eq_some (msgs : List CMessage) (mid : String)
    (target : CMessage)
    (hfind : msgs.find? (fun m => m.id == mid) = some target) :
    deleteMessage msgs mid =
      if target.isDeleted then (msgs.filter (fun m => !(m.id == mid)), false)
      else if isTempId mid then (msgs.map (tombstoneIfMatch mid), false)
      else (msgs.map (tombstoneIfMatch mid), true) := by
  unfold deleteMessage
  rw [hfind]

/-- C10: deleting an already-deleted message removes its entry entirely
and makes no server call, while every other message stays in the sequence;
deleting a not-yet-deleted message keeps an entry for it (same length)
carrying the tombstone content and the deleted flag. -/
theorem deleteMessage_spec (msgs : List CMessage) (mid : String)
    (target : CMessage)
    (hfind : msgs.find? (fun m => m.id == mid) = some target) :
    (∀ x ∈ msgs, x.id ≠ mid → x ∈ (deleteMessage msgs mid).1) ∧
      (target.isDeleted = true →
        (deleteMessage msgs mid).2 = false ∧
          ∀ x ∈ (deleteMessage msgs mid).1, x.id ≠ mid) ∧
      (target.isDeleted = false →
        (deleteMessage msgs mid).1.length = msgs.length ∧
          ∃ x ∈ (deleteMessage msgs mid).1,
            x.id = mid ∧ x.content = "This message was deleted" ∧
              x.isDeleted = true) := by
  have hmem : target ∈ msgs := List.mem_of_find?_eq_some hfind
  have hid' := List.find?_some hfind
  have hid : target.id = mid := by simpa using hid'
  rw [deleteMessage_eq_some msgs mid target hfind]
  refine ⟨?_, ?_, ?_⟩
  · intro x hx hne
    by_cases hdel : target.isDeleted
    · rw [if_pos hdel]
      exact List.mem_filter.mpr ⟨hx, by simp [hne]⟩
    · rw [if_neg hdel]
      have hxx : tombstoneIfMatch mid x = x := by
        unfold tombstoneIfMatch; simp [hne]
      by_cases htmp : isTempId mid
      · rw [if_pos htmp, ← hxx]
        exact List.mem_map_of_mem _ hx
      · rw [if_neg htmp, ← hxx]
        exact List.mem_map_of_mem _ hx
  · intro hdel
    rw [if_pos hdel]
    refine ⟨rfl, ?_⟩
    intro x hx
    have := List.of_mem_filter hx
    simpa using this
  · intro hdel
    rw [if_neg (by rw [hdel]; exact Bool.false_ne_true)]
    have hmain :
        (msgs.map (tombstoneIfMatch mid)).length = msgs.length ∧
          ∃ x ∈ msgs.map (tombstoneIfMatch mid),
            x.id = mid ∧ x.content = "This message was deleted" ∧
              x.isDeleted = true := by
      refine ⟨List.length_map _ _, ?_⟩
      refine ⟨tombstoneIfMatch mid target, List.mem_map_of_mem _ hmem, ?_⟩
      unfold tombstoneIfMatch
      rw [if_pos (by simp [hid])]
      exact ⟨hid, rfl, rfl⟩
    by_cases htmp : isTempId mid
    · rw [if_pos htmp]; exact hmain
    · rw [if_neg htmp]; exact hmain

/-- C10 witness: a sequence holding an already-deleted message `m-1` and a
live message `m-2`; deleting `m-1` removes it, keeps `m-2`, and makes no
server call. -/
theorem deleteMessage_spec_witness :
    ([⟨"m-1", "This message was deleted", "u-A", true⟩,
        (⟨"m-2", "hi", "u-B", false⟩ : CMessage)].find?
          (fun m => m.id == "m-1")
        = some ⟨"m-1", "This message was deleted", "u-A", true⟩) ∧
      (∀ x ∈ [(⟨"m-1", "This message was deleted", "u-A", true⟩ : CMessage),
          ⟨"m-2", "hi", "u-B", false⟩], x.id ≠ "m-1" →
        x ∈ (deleteMessage [⟨"m-1", "This message was deleted", "u-A", true⟩,
            ⟨"m-2", "hi", "u-B", false⟩] "m-1").1) ∧
      ((deleteMessage [⟨"m-1", "This message was deleted", "u-A", true⟩,
            ⟨"m-2", "hi", "u-B", false⟩] "m-1").2 = false ∧
        ∀ x ∈ (deleteMessage [⟨"m-1", "This message was deleted", "u-A", true⟩,
            ⟨"m-2", "hi", "u-B", false⟩] "m-1").1, x.id ≠ "m-1") := by
  have h := deleteMessage_spec
    [⟨"m-1", "This message was deleted", "u-A", true⟩,
      ⟨"m-2", "hi", "u-B", false⟩] "m-1"
    ⟨"m-1", "This message was deleted", "u-A", true⟩ (by decide)
  exact ⟨by decide, h.1, h.2.1 rfl⟩

/-! Section: Typing indicators (chatStore.ts `handleTyping` / `handleStopTyping`)

`typingUsers` is a record mapping chat id to the list of names of users
currently typing there. -/

/-- The client's typing map: chat id → names of currently typing users. -/
abbrev TypingState := List (String × List String)

/-- Lookup `typingUsers[chatId] || []`. -/
def getTyping (st : TypingState) (cid : String) : List String :=
  (keyFind st cid).getD []

/-- The handler `handleTyping` (chatStore.ts lines 432-449) without the timed
auto-clear: add the user name to the chat's typing list through a `Set`
(dedup on insert). -/
def handleTyping (st : TypingState) (cid userName : String) : TypingState :=
  keySet st cid (addToSet (getTyping st cid) userName)

/-- The handler `handleStopTyping` (chatStore.ts lines 451-458): the update filters the
chat's typing list with `(_, i) => i !== 0`, i.e. it drops the FIRST entry
of the list; the `userId` argument is ignored. -/
def handleStopTyping (st : TypingState) (cid _userId : String) : TypingState :=
  keySet st cid ((getTyping st cid).drop 1)

/-- C9 evaluation at the failing input: with "alice" and "bob" typing in
chat `c-1` (in that order), a stop-typing event for user "bob" removes
"alice"'s indicator and leaves "bob"'s — not, as the claim states, exactly
the stopping user's indicator. -/
theorem handleStopTyping_failing :
    handleStopTyping [("c-1", ["alice", "bob"])] "c-1" "bob"
        = [("c-1", ["bob"])] ∧
      handleStopTyping [("c-1", ["alice", "bob"])] "c-1" "bob"
        ≠ [("c-1", ["alice"])] :=
  ⟨by decide, by decide⟩

/-! Section: Backend data model (models/Chat.js, models/Message.js)

Documents are embedded with the fields the claims touch; ids are strings
(Mongo ObjectIds compared via `toString()`). -/

/-- A chat document: type (`private` or `group`), participant ids,
admin ids (models/Chat.js). -/
structure Chat where
  typ : String
  participants : List String
  admins : List String
deriving DecidableEq, Repr

/-- Method `chat.isParticipant(userId)` (models/Chat.js lines 680-684). -/
def isParticipant (c : Chat) (userId : String) : Bool :=
  c.participants.contains userId

/-- Method `chat.isAdmin(userId)` (models/Chat.js lines 687-691). -/
def isAdmin (c : Chat) (userId : String) : Bool :=
  c.admins.contains userId

/-- A message document with the fields the socket handlers read and write
(models/Message.js): id, owning chat, sender, content, type, edit and
soft-delete state, lifecycle status, and read receipts `(user, readAt)`. -/
structure SMessage where
  id : String
  chat : String
  senderId : String
  content : String
  typ : String
  isEdited : Bool
  editedAt : Option Nat
  isDeleted : Bool
  status : String
  readBy : List (String × Nat)
deriving DecidableEq, Repr

/-- Events the gateway emits: a local `error` to the caller, a
`message-edited` broadcast to the chat room, a `messages-read` broadcast. -/
inductive Event : Type
  | errorEvt (message : String)
  | messageEdited (chatId : String) (m : SMessage)
  | messagesRead (chatId : String) (readBy : String) (messageIds : List String)
deriving DecidableEq, Repr

/-! Section: `edit-message` handler (handlers.js lines 137-163)

The handler looks the message up; when it is missing or the caller is not
its sender it emits a local `error` and stops.  Otherwise it overwrites
the content, sets the edited flag and timestamp, saves, and broadcasts
`message-edited` to the chat room.  No check of the message type or of the
soft-delete flag is performed. -/

/-- Effect of the `edit-message` handler on the message store; returns the new
store and the emitted events. -/
def editMessage (db : List SMessage) (userId messageId content : String)
    (now : Nat) : List SMessage × List Event :=
  match db.find? (fun m => m.id == messageId) with
  | none => (db, [.errorEvt "Not authorized"])
  | some message =>
    if message.senderId ≠ userId then (db, [.errorEvt "Not authorized"])
    else
      let message' := { message with
        content := content, isEdited := true, editedAt := some now }
      (db.map (fun m => if m.id == messageId then message' else m),
        [.messageEdited message.chat message'])

/-- The mutated message the edit handler saves: new content, edited flag,
edit timestamp (handlers.js lines 147-149). -/
def editedCopy (message : SMessage) (content : String) (now : Nat) : SMessage :=
  { message with content := content, isEdited := true, editedAt := some now }

theorem editMessage_eq_none (db : List SMessage)
    (userId messageId content : String) (now : Nat)
    (hfind : db.find? (fun m => m.id == messageId) = none) :
    editMessage db userId messageId content now
      = (db, [.errorEvt "Not authorized"]) := by
  unfold editMessage
  rw [hfind]

theorem editMessage_eq_some (db : List SMessage)
    (userId messageId content : String) (now : Nat) (message : SMessage)
    (hfind : db.find? (fun m => m.id == messageId) = some message) :
    editMessage db userId messageId content now
      = if message.senderId ≠ userId then (db, [.errorEvt "Not authorized"])
        else
          (db.map (fun m => if m.id == messageId then
              editedCopy message content now else m),
            [.messageEdited message.chat (editedCopy message content now)]) := by
  unfold editMessage editedCopy
  rw [hfind]

/-- C4 (amended): the edit-message handler mutates the message and
broadcasts `message-edited` exactly when the message exists and the caller
is its original sender, regardless of the message's type and soft-delete
flag; when the message is missing or the caller is not the sender the
store is unchanged and only a local error is emitted. -/
theorem editMessage_spec (db : List SMessage)
    (userId messageId content : String) (now : Nat) :
    (db.find? (fun m => m.id == messageId) = none →
      editMessage db userId messageId content now
        = (db, [.errorEvt "Not authorized"])) ∧
    ∀ message, db.find? (fun m => m.id == messageId) = some message →
      (message.senderId ≠ userId →
        editMessage db userId messageId content now
          = (db, [.errorEvt "Not authorized"])) ∧
      (message.senderId = userId →
        (∃ x ∈ (editMessage db userId messageId content now).1,
          x.id = message.id ∧ x.content = content ∧ x.isEdited = true ∧
            x.editedAt = some now) ∧
        (editMessage db userId messageId content now).2
          = [.messageEdited message.chat (editedCopy message content now)]) := by
  refine ⟨fun hf => editMessage_eq_none db userId messageId content now hf, ?_⟩
  intro message hfind
  have heq := editMessage_eq_some db userId messageId content now message hfind
  have hmem : message ∈ db := List.mem_of_find?_eq_some hfind
  have hid : message.id = messageId := by
    have := List.find?_some hfind
    simpa using this
  constructor
  · intro hne
    rw [heq, if_pos hne]
  · intro hs
    rw [heq, if_neg (by simp [hs])]
    constructor
    · have hstep : (fun m => if m.id == messageId then
          editedCopy message content now else m) message
          = editedCopy message content now := by
        simp [hid]
      have hm2 := List.mem_map_of_mem
        (fun m => if m.id == messageId then editedCopy message content now
          else m) hmem
      rw [hstep] at hm2
      exact ⟨editedCopy message content now, hm2, rfl, rfl, rfl, rfl⟩
    · rfl

/-- C4 witness: the sender edits their own live text message; the store
carries the new content and `message-edited` is broadcast. -/
theorem editMessage_spec_witness :
    (([⟨"m-7", "c-1", "bob", "hey", "text", false, none, false, "sent", []⟩]
        : List SMessage).find? (fun m => m.id == "m-7")
      = some ⟨"m-7", "c-1", "bob", "hey", "text", false, none, false, "sent", []⟩) ∧
    ((∃ x ∈ (editMessage
        [⟨"m-7", "c-1", "bob", "hey", "text", false, none, false, "sent", []⟩]
        "bob" "m-7" "hey there" 4).1,
        x.id = "m-7" ∧ x.content = "hey there" ∧ x.isEdited = true ∧
          x.editedAt = some 4) ∧
      (editMessage
        [⟨"m-7", "c-1", "bob", "hey", "text", false, none, false, "sent", []⟩]
        "bob" "m-7" "hey there" 4).2
        = [.messageEdited "c-1"
            ⟨"m-7", "c-1", "bob", "hey there", "text", true, some 4, false,
              "sent", []⟩]) := by
  have h := (editMessage_spec
    [⟨"m-7", "c-1", "bob", "hey", "text", false, none, false, "sent", []⟩]
    "bob" "m-7" "hey there" 4).2
    ⟨"m-7", "c-1", "bob", "hey", "text", false, none, false, "sent", []⟩
    (by decide)
  exact ⟨by decide, (h.2 rfl).1, ((h.2 rfl).2 : _)⟩

/-- C4 counterexample: a soft-deleted image message whose sender is the
caller violates two of the claim's preconditions (type is not text, the
message is soft-deleted), yet the handler mutates it and broadcasts
`message-edited` instead of leaving it unchanged with only a local
error. -/
theorem editMessage_counterexample :
    (⟨"m-9", "c-1", "alice", "This message was deleted", "image", false,
        none, true, "sent", []⟩ : SMessage).isDeleted = true ∧
    (⟨"m-9", "c-1", "alice", "This message was deleted", "image", false,
        none, true, "sent", []⟩ : SMessage).typ ≠ "text" ∧
    (editMessage
        [⟨"m-9", "c-1", "alice", "This message was deleted", "image", false,
          none, true, "sent", []⟩] "alice" "m-9" "patched" 5).1
      ≠ [⟨"m-9", "c-1", "alice", "This message was deleted", "image", false,
          none, true, "sent", []⟩] ∧
    (editMessage
        [⟨"m-9", "c-1", "alice", "This message was deleted", "image", false,
          none, true, "sent", []⟩] "alice" "m-9" "patched" 5).2
      = [.messageEdited "c-1"
          ⟨"m-9", "c-1", "alice", "patched", "image", true, some 5, true,
            "sent", []⟩] :=
  ⟨by decide, by decide, by decide, by decide⟩

/-! Section: `mark-read` handler (handlers.js lines 264-292)

When the target id list is non-empty the handler runs one `updateMany`
over the messages whose id is in the list and whose sender is not the
caller, adding `{user: caller, readAt: now}` to `readBy` as a set and
setting `status: 'seen'`; then it broadcasts `messages-read` to the room
either way. -/

/-- The per-message update of `mark-read`'s `updateMany`
(handlers.js lines 269-280). -/
def markReadUpdate (userId : String) (messageIds : List String) (now : Nat)
    (m : SMessage) : SMessage :=
  if messageIds.contains m.id && !(m.senderId == userId) then
    { m with readBy := addToSet m.readBy (userId, now), status := "seen" }
  else m

/-- Effect of the `mark-read` handler on the message store, with the
`messages-read` broadcast. -/
def markRead (db : List SMessage) (userId chatId : String)
    (messageIds : List String) (now : Nat) : List SMessage × List Event :=
  if messageIds = [] then (db, [.messagesRead chatId userId messageIds])
  else
    (db.map (markReadUpdate userId messageIds now),
      [.messagesRead chatId userId messageIds])

theorem mem_addToSet_self {α : Type} [DecidableEq α] (l : List α) (a : α) :
    a ∈ addToSet l a := by
  unfold addToSet
  by_cases h : a ∈ l
  · rw [if_pos h]; exact h
  · rw [if_neg h]; exact List.mem_append_right l (List.mem_singleton.mpr rfl)

/-- C5 (amended): for a non-empty target list, `mark-read` marks every
targeted message not sent by the caller as read by the caller and sets its
status to `seen` immediately — it does not wait until every other
participant of the conversation has read the message — and leaves every
other message unchanged. -/
theorem markRead_spec (db : List SMessage) (userId chatId : String)
    (messageIds : List String) (now : Nat) (hne : messageIds ≠ []) :
    ∀ m ∈ db,
      ((messageIds.contains m.id && !(m.senderId == userId)) = true →
        ∃ x ∈ (markRead db userId chatId messageIds now).1,
          x.id = m.id ∧ x.status = "seen" ∧
            userId ∈ x.readBy.map Prod.fst) ∧
      ((messageIds.contains m.id && !(m.senderId == userId)) = false →
        m ∈ (markRead db userId chatId messageIds now).1) := by
  intro m hm
  unfold markRead
  rw [if_neg hne]
  constructor
  · intro hcond
    refine ⟨markReadUpdate userId messageIds now m,
      List.mem_map_of_mem _ hm, ?_, ?_, ?_⟩
    · unfold markReadUpdate
      rw [if_pos hcond]
    · unfold markReadUpdate
      rw [if_pos hcond]
    · unfold markReadUpdate
      rw [if_pos hcond]
      simp only
      exact List.mem_map.mpr ⟨(userId, now), mem_addToSet_self m.readBy _, rfl⟩
  · intro hcond
    have hstep : markReadUpdate userId messageIds now m = m := by
      unfold markReadUpdate
      rw [hcond]
      simp
    have := List.mem_map_of_mem (markReadUpdate userId messageIds now) hm
    rw [hstep] at this
    exact this

/-- C5 witness: in a chat whose participants are A, B and C, B marks A's
message read; the updated entry carries B as a reader and status `seen`,
and untargeted messages stay unchanged. -/
theorem markRead_spec_witness :
    ((["m-1"] : List String) ≠ []) ∧
    ((⟨"m-1", "c-1", "A", "hi", "text", false, none, false, "sent", []⟩
        : SMessage) ∈
      [(⟨"m-1", "c-1", "A", "hi", "text", false, none, false, "sent", []⟩
        : SMessage)]) ∧
    (∃ x ∈ (markRead
        [⟨"m-1", "c-1", "A", "hi", "text", false, none, false, "sent", []⟩]
        "B" "c-1" ["m-1"] 7).1,
      x.id = "m-1" ∧ x.status = "seen" ∧ "B" ∈ x.readBy.map Prod.fst) := by
  have h := markRead_spec
    [⟨"m-1", "c-1", "A", "hi", "text", false, none, false, "sent", []⟩]
    "B" "c-1" ["m-1"] 7 (by decide)
    ⟨"m-1", "c-1", "A", "hi", "text", false, none, false, "sent", []⟩
    (by decide)
  exact ⟨by decide, by decide, h.1 (by decide)⟩

/-- C5 counterexample: the conversation has participants A, B and C; B
alone marks A's message read, so the readers do not include every
participant other than the sender (C has not read it), yet the handler
already escalates the message's status to `seen`. -/
theorem markRead_counterexample :
    (⟨"group", ["A", "B", "C"], ["A"]⟩ : Chat).participants
        = ["A", "B", "C"] ∧
    ∃ x ∈ (markRead
        [⟨"m-1", "c-1", "A", "hi", "text", false, none, false, "sent", []⟩]
        "B" "c-1" ["m-1"] 7).1,
      x.id = "m-1" ∧ x.status = "seen" ∧
        "C" ∉ x.readBy.map Prod.fst ∧ "C" ≠ x.senderId :=
  ⟨by decide, by decide⟩

/-! Section: Leaving a group (routes/chats.js, POST /api/chats/:id/leave,
lines 271-328)

The route removes the caller from `participants` and `admins`; when no
participants remain it deletes the conversation; when the admin list
emptied but participants remain it pushes the first remaining participant
onto `admins`. -/

/-- Outcome of the leave operation on one chat document. -/
inductive LeaveRes : Type
  | errRes (msg : String)
  | deletedRes
  | okRes (c : Chat)
deriving DecidableEq, Repr

/-- The leave route's effect on a single found chat document
(routes/chats.js lines 281-313). -/
def leaveChat (chat : Chat) (userId : String) : LeaveRes :=
  if chat.typ ≠ "group" then .errRes "Cannot leave private chats"
  else if !(isParticipant chat userId) then .errRes "Not a member of this group"
  else
    match chat.participants.filter (fun p => p ≠ userId) with
    | [] => .deletedRes
    | p :: rest =>
      let admins' := chat.admins.filter (fun a => a ≠ userId)
      .okRes { chat with
        participants := p :: rest,
        admins := if admins' = [] then [p] else admins' }

/-- C6: whenever the leave operation keeps the group (non-empty remaining
participant set), the admin set of the result is non-empty; and when the
leaver was the last admin, a single remaining participant has been
promoted to sole admin. -/
theorem leaveChat_admin_invariant (chat : Chat) (userId : String) (c' : Chat)
    (h : leaveChat chat userId = .okRes c') :
    c'.participants ≠ [] ∧ c'.admins ≠ [] ∧
      (chat.admins.filter (fun a => a ≠ userId) = [] →
        ∃ p, c'.admins = [p] ∧ p ∈ c'.participants) := by
  unfold leaveChat at h
  by_cases h1 : chat.typ ≠ "group"
  · rw [if_pos h1] at h; cases h
  · rw [if_neg h1] at h
    by_cases h2 : !(isParticipant chat userId)
    · rw [if_pos h2] at h; cases h
    · rw [if_neg h2] at h
      cases hf : chat.participants.filter (fun p => p ≠ userId) with
      | nil => rw [hf] at h; cases h
      | cons p rest =>
        rw [hf] at h
        simp only [LeaveRes.okRes.injEq] at h
        subst h
        refine ⟨by simp, ?_, ?_⟩
        · show (if chat.admins.filter (fun a => a ≠ userId) = [] then [p]
            else chat.admins.filter (fun a => a ≠ userId)) ≠ []
          by_cases ha : chat.admins.filter (fun a => a ≠ userId) = []
          · rw [if_pos ha]; simp
          · rw [if_neg ha]; exact ha
        · intro ha
          refine ⟨p, ?_, List.mem_cons_self p rest⟩
          show (if chat.admins.filter (fun a => a ≠ userId) = [] then [p]
            else chat.admins.filter (fun a => a ≠ userId)) = [p]
          rw [if_pos ha]

/-- C6 witness: the spec's last-admin scenario — admins `[A]`,
participants `[A, B]`; A leaves, B becomes sole admin and the group
survives with participants `[B]`. -/
theorem leaveChat_admin_invariant_witness :
    leaveChat ⟨"group", ["A", "B"], ["A"]⟩ "A"
        = .okRes ⟨"group", ["B"], ["B"]⟩ ∧
      ((⟨"group", ["B"], ["B"]⟩ : Chat).participants ≠ [] ∧
        (⟨"group", ["B"], ["B"]⟩ : Chat).admins ≠ [] ∧
        ((⟨"group", ["A", "B"], ["A"]⟩ : Chat).admins.filter
            (fun a => a ≠ "A") = [] →
          ∃ p, (⟨"group", ["B"], ["B"]⟩ : Chat).admins = [p] ∧
            p ∈ (⟨"group", ["B"], ["B"]⟩ : Chat).participants)) :=
  ⟨by decide,
    leaveChat_admin_invariant ⟨"group", ["A", "B"], ["A"]⟩ "A"
      ⟨"group", ["B"], ["B"]⟩ (by decide)⟩

/-- REST response shape of the chats routes, as far as the claims need:
404 not-found, 400 bad-request, and a success message. -/
inductive RouteRes : Type
  | notFound
  | badRequest (msg : String)
  | okMsg (msg : String)
deriving DecidableEq, Repr

/-- Route POST /api/chats/:id/leave over a chat store keyed by chat id
(routes/chats.js lines 271-328): look the chat up, apply `leaveChat`,
and delete / save the document accordingly. -/
def leaveRoute (db : List (String × Chat)) (cid userId : String) :
    List (String × Chat) × RouteRes :=
  match keyFind db cid with
  | none => (db, .notFound)
  | some chat =>
    match leaveChat chat userId with
    | .errRes m => (db, .badRequest m)
    | .deletedRes =>
      (keyErase db cid,
        .okMsg "Left group. Group was deleted as it had no members.")
    | .okRes c' => (keySet db cid c', .okMsg "Left group successfully")

/-- Route GET /api/chats/:id (routes/chats.js lines 136-165), reduced to the
outcome kind: 404 when the id is unknown, 403 for non-participants,
otherwise the chat. -/
inductive GetRes : Type
  | gNotFound
  | gForbidden
  | gOk (c : Chat)
deriving DecidableEq, Repr

/-- Chat lookup of GET /api/chats/:id. -/
def getChatRoute (db : List (String × Chat)) (cid userId : String) : GetRes :=
  match keyFind db cid with
  | none => .gNotFound
  | some chat =>
    if isParticipant chat userId then .gOk chat else .gForbidden

theorem keyFind_keyErase {β : Type} (st : List (String × β)) (k : String) :
    keyFind (keyErase st k) k = none := by
  induction st with
  | nil => rfl
  | cons p rest ih =>
    unfold keyErase at *
    by_cases hp : p.1 = k
    · simp only [List.filter_cons]
      rw [if_neg (by simp [hp])]
      exact ih
    · simp only [List.filter_cons]
      rw [if_pos (by simp [hp])]
      unfold keyFind
      rw [if_neg hp]
      exact ih

/-- C7: when the sole remaining participant of a group leaves, the leave
route deletes the conversation record and reports the deletion, and a
subsequent lookup of that conversation id yields NotFound for every
caller. -/
theorem leaveRoute_deletes_empty_group (db : List (String × Chat))
    (cid userId : String) (chat : Chat)
    (hfind : keyFind db cid = some chat)
    (htyp : chat.typ = "group")
    (hparts : chat.participants = [userId]) :
    (leaveRoute db cid userId).2
        = .okMsg "Left group. Group was deleted as it had no members." ∧
      ∀ u, getChatRoute (leaveRoute db cid userId).1 cid u = .gNotFound := by
  have hleave : leaveChat chat userId = .deletedRes := by
    unfold leaveChat
    rw [if_neg (by simp [htyp])]
    rw [if_neg (by simp [isParticipant, hparts])]
    rw [hparts]
    simp
  have hroute : leaveRoute db cid userId
      = (keyErase db cid,
          .okMsg "Left group. Group was deleted as it had no members.") := by
    unfold leaveRoute
    rw [hfind]
    dsimp only
    rw [hleave]
  rw [hroute]
  refine ⟨rfl, fun u => ?_⟩
  unfold getChatRoute
  rw [keyFind_keyErase]

/-- C7 witness: the spec scenario — a group left with sole participant A;
A leaves, the record is deleted and the lookup returns NotFound. -/
theorem leaveRoute_deletes_empty_group_witness :
    (keyFind [("c-9", (⟨"group", ["A"], ["A"]⟩ : Chat))] "c-9"
        = some ⟨"group", ["A"], ["A"]⟩) ∧
      ((leaveRoute [("c-9", ⟨"group", ["A"], ["A"]⟩)] "c-9" "A").2
          = .okMsg "Left group. Group was deleted as it had no members." ∧
        ∀ u, getChatRoute
            (leaveRoute [("c-9", ⟨"group", ["A"], ["A"]⟩)] "c-9" "A").1
            "c-9" u = .gNotFound) :=
  ⟨by decide,
    leaveRoute_deletes_empty_group [("c-9", ⟨"group", ["A"], ["A"]⟩)]
      "c-9" "A" ⟨"group", ["A"], ["A"]⟩ (by decide) (by decide) (by decide)⟩

/-! Section: `join-chat` handler (handlers.js lines 68-78)

The handler looks up the chat; only when it exists and the caller is a
participant does the socket join the room.  In every other case nothing
happens: no room change and no event (the `error` emit sits solely in the
catch-branch for persistence failures, which is outside this model). -/

/-- Whether the caller is a participant of the chat stored under `cid`
(false as well when no such chat exists). -/
def userIsParticipantOf (db : List (String × Chat)) (cid userId : String) :
    Bool :=
  match keyFind db cid with
  | some chat => isParticipant chat userId
  | none => false

/-- The `join-chat` handler: the socket's room list and emitted events after
the request (rooms behave as a set, `socket.join` is add-if-absent). -/
def joinChat (db : List (String × Chat)) (userId cid : String)
    (rooms : List String) : List String × List Event :=
  match keyFind db cid with
  | some chat =>
    if isParticipant chat userId then
      (addToSet rooms ("chat:" ++ cid), [])
    else (rooms, [])
  | none => (rooms, [])

/-- C8: a join-chat request by a user who is not a participant of the
target conversation (or whose target does not exist) changes no room
membership and emits no event at all — the attempt is silently ignored. -/
theorem joinChat_unauthorized_silent (db : List (String × Chat))
    (userId cid : String) (rooms : List String)
    (h : userIsParticipantOf db cid userId = false) :
    joinChat db userId cid rooms = (rooms, []) := by
  unfold userIsParticipantOf at h
  unfold joinChat
  cases hf : keyFind db cid with
  | none => rfl
  | some chat =>
    rw [hf] at h
    simp only at h
    dsimp only
    rw [if_neg (by simp [h])]

/-- C8 witness: user Z, not a participant of chat `c-1`, sends join-chat;
rooms and events are untouched. -/
theorem joinChat_unauthorized_silent_witness :
    userIsParticipantOf [("c-1", (⟨"group", ["A"], ["A"]⟩ : Chat))] "c-1" "Z"
        = false ∧
      joinChat [("c-1", ⟨"group", ["A"], ["A"]⟩)] "Z" "c-1" ["user:Z"]
        = (["user:Z"], []) :=
  ⟨by decide,
    joinChat_unauthorized_silent [("c-1", ⟨"group", ["A"], ["A"]⟩)]
      "Z" "c-1" ["user:Z"] (by decide)⟩

end NexusChat
